import Mathlib

/-!
Shallow embedding of `src/main.rs` of the bplus-streamdlrs-gui repository:
a local web front-end around an external downloader binary (`yt-dlp_linux`).
We embed the pure data transformations the handlers perform: JSON-metadata
decoding (serde semantics of `YtDlpOutput` / `YtDlpFormat`), the format
classifier loop of `analyze_url`, the argument list built by
`download_format`, and the directory-listing logic of `show_files`.
Machine integers (`u32`, `u64`) are modelled as `Nat` with range checks in
the JSON decoder, mirroring serde's range checks; no arithmetic in the
program can overflow since it only ever divides one size value.
-/

namespace StreamDl

/-- `struct YtDlpFormat` of `main.rs` (lines 15-27): the raw descriptor of
one downloadable format.  Every field except `format_id` is `Option` in the
Rust source. -/
structure YtDlpFormat where
  format_id : String
  ext : Option String
  width : Option Nat
  height : Option Nat
  acodec : Option String
  vcodec : Option String
  filesize : Option Nat
  filesize_approx : Option Nat
  language : Option String
  format_note : Option String
deriving Repr, DecidableEq

/-- `struct YtDlpOutput` (lines 29-33): title plus ordered format list.
Both fields are plain (non-`Option`) and carry no `#[serde(default)]`. -/
structure YtDlpOutput where
  title : String
  formats : List YtDlpFormat
deriving Repr, DecidableEq

/-- `struct DisplayFormat` (lines 71-81): the derived display row. -/
structure DisplayFormat where
  id : String
  ext : String
  resolution : String
  filesize : String
  codecs : String
  language : String
  type_label : String
  raw_height : Nat
deriving Repr, DecidableEq

/-! ### The classifier loop of `analyze_url` (lines 144-186) -/

/-- `f.acodec.as_deref().unwrap_or("none") != "none"` (line 145). -/
def is_audio (f : YtDlpFormat) : Bool :=
  f.acodec.getD "none" != "none"

/-- `f.vcodec.as_deref().unwrap_or("none") != "none"` (line 146). -/
def is_video (f : YtDlpFormat) : Bool :=
  f.vcodec.getD "none" != "none"

/-- The `type_label` chain of lines 148-154. -/
def type_label (f : YtDlpFormat) : String :=
  if is_audio f && is_video f then "Video+Audio"
  else if is_video f then "Video Only"
  else "Audio Only"

/-- `f.filesize.or(f.filesize_approx).unwrap_or(0)` (line 156).  Rust's
`Option::or` keeps `Some(0)`: the approximate size is consulted only when
`filesize` is `None`. -/
def chosen_size (f : YtDlpFormat) : Nat :=
  (f.filesize.or f.filesize_approx).getD 0

/-- One mebibyte, the divisor `1024.0 * 1024.0` of line 158. -/
def MiB : Nat := 1048576

/-- The value `bytes / 1024 / 1024` rounded to hundredths, half to even.
This models Rust's `format!("{:.2}", bytes as f64 / 1024.0 / 1024.0)`:
for `bytes < 2^53` the conversion to `f64` and the two divisions by the
power of two `2^20` are exact, and float formatting rounds the exact value
half-to-even at the second decimal. -/
def mb_hundredths (bytes : Nat) : Nat :=
  let n := bytes * 100
  let q := n / MiB
  let r := n % MiB
  if MiB < 2 * r then q + 1
  else if 2 * r < MiB then q
  else if q % 2 = 0 then q else q + 1

/-- Two-digit zero-padded decimal, the fractional part of `{:.2}`. -/
def pad2 (n : Nat) : String :=
  if n < 10 then "0" ++ Nat.repr n else Nat.repr n

/-- `format!("{:.2} MB", bytes as f64 / 1024.0 / 1024.0)` (line 158). -/
def mb_string (bytes : Nat) : String :=
  Nat.repr (mb_hundredths bytes / 100) ++ "." ++ pad2 (mb_hundredths bytes % 100) ++ " MB"

/-- The `size_str` computation of lines 156-161. -/
def size_str (f : YtDlpFormat) : String :=
  if 0 < chosen_size f then mb_string (chosen_size f) else "Unknown"

/-- The resolution string of lines 163-167. -/
def resolution_str (f : YtDlpFormat) : String :=
  match f.width, f.height with
  | some w, some h => Nat.repr w ++ "x" ++ Nat.repr h
  | _, _ => "Audio"

/-- Lexicographic "less or equal" on code-point sequences.  Rust compares
`String`s byte-wise over UTF-8; since UTF-8 preserves code-point order,
byte order and code-point order coincide, so this is the comparison behind
`languages.sort()` and `sort_by(|a, b| a.name.cmp(&b.name))`. -/
def chars_le : List Char → List Char → Bool
  | [], _ => true
  | _ :: _, [] => false
  | a :: as, b :: bs =>
    if a.toNat < b.toNat then true
    else if b.toNat < a.toNat then false
    else chars_le as bs

/-- String comparison: Rust `str::cmp` as a "less or equal" test. -/
def str_le (a b : String) : Bool :=
  chars_le a.data b.data

/-- `f.language.clone().unwrap_or_else(|| "Unknown".to_string())` (line 169). -/
def row_lang (f : YtDlpFormat) : String :=
  f.language.getD "Unknown"

/-- The codec summary of line 179. -/
def codecs_str (f : YtDlpFormat) : String :=
  f.vcodec.getD "none" ++ "/" ++ f.acodec.getD "none"

/-- The `DisplayFormat` pushed for one descriptor (lines 174-183). -/
def mk_display (f : YtDlpFormat) : DisplayFormat :=
  { id := f.format_id
    ext := f.ext.getD ""
    resolution := resolution_str f
    filesize := size_str f
    codecs := codecs_str f
    language := row_lang f
    type_label := type_label f
    raw_height := f.height.getD 0 }

/-- One iteration of the `for f in meta.formats` loop (lines 144-184): push
the display row, and push the language when it is neither `"Unknown"` nor
already collected (lines 170-172). -/
def classify_step (acc : List DisplayFormat × List String) (f : YtDlpFormat) :
    List DisplayFormat × List String :=
  let lang := row_lang f
  (acc.1 ++ [mk_display f],
   if lang != "Unknown" && !acc.2.contains lang then acc.2 ++ [lang] else acc.2)

/-- The whole classifier: the loop of lines 144-184 followed by
`languages.sort()` (line 186).  Rust's ascending slice sort is modelled by
`List.insertionSort` on the byte-wise string order `str_le`. -/
def classify (fs : List YtDlpFormat) : List DisplayFormat × List String :=
  let p := fs.foldl classify_step ([], [])
  (p.1, List.insertionSort (fun a b => str_le a b = true) p.2)

/-! ### JSON values and the serde decoding of `YtDlpOutput` (lines 136-139)

`serde_json::from_str::<YtDlpOutput>` first parses the text into a JSON
value and then decodes that value into the struct.  We model JSON values
explicitly; the purely textual parse phase (performed by the external
`serde_json` crate, not by this repository) is abstracted as an
`Option Json`, with `none` standing for text that is not syntactically
valid JSON.  JSON numbers are modelled as integers: no field of the two
structs is a float, and serde rejects non-integral or out-of-range numbers
for the integer fields, which the decoders below mirror with range checks.
Duplicate keys inside one JSON object are not modelled (serde rejects
duplicate known fields); object field lists are to be read as maps. -/

inductive Json where
  | null : Json
  | bool (b : Bool) : Json
  | num (n : Int) : Json
  | str (s : String) : Json
  | arr (elems : List Json) : Json
  | obj (fields : List (String × Json)) : Json

/-- Field lookup inside a JSON object. -/
def jlookup (m : List (String × Json)) (k : String) : Option Json :=
  (m.find? (fun p => p.1 == k)).map (fun p => p.2)

/-- `ParseError`: the parse failure of line 138.  The Rust handler drops
the `serde_json::Error` value and renders a fixed message, so the error
carries no data at all. -/
inductive ParseError where
  | parseError : ParseError
deriving Repr, DecidableEq

/-- serde: a required `String` field decodes from a JSON string only. -/
def decodeString : Json → Except ParseError String
  | .str s => .ok s
  | _ => .error .parseError

/-- serde: an `Option<String>` field — absent or `null` is `None`. -/
def decodeOptString : Option Json → Except ParseError (Option String)
  | none => .ok none
  | some .null => .ok none
  | some (.str s) => .ok (some s)
  | some _ => .error .parseError

/-- serde: an `Option<u32>` field — absent or `null` is `None`; a number
decodes when it lies in `u32` range. -/
def decodeOptU32 : Option Json → Except ParseError (Option Nat)
  | none => .ok none
  | some .null => .ok none
  | some (.num n) => if 0 ≤ n ∧ n < 4294967296 then .ok (some n.toNat) else .error .parseError
  | some _ => .error .parseError

/-- serde: an `Option<u64>` field — absent or `null` is `None`; a number
decodes when it lies in `u64` range. -/
def decodeOptU64 : Option Json → Except ParseError (Option Nat)
  | none => .ok none
  | some .null => .ok none
  | some (.num n) => if 0 ≤ n ∧ n < 18446744073709551616 then .ok (some n.toNat) else .error .parseError
  | some _ => .error .parseError

/-- serde decoding of one `YtDlpFormat` (struct at lines 15-27):
`format_id` is required, every other field is `Option` and defaults to
`None` when absent; unknown keys are ignored (serde's default). -/
def decodeFormat : Json → Except ParseError YtDlpFormat
  | .obj m => do
    let fid ← match jlookup m "format_id" with
      | some j => decodeString j
      | none => .error .parseError
    let e ← decodeOptString (jlookup m "ext")
    let w ← decodeOptU32 (jlookup m "width")
    let h ← decodeOptU32 (jlookup m "height")
    let ac ← decodeOptString (jlookup m "acodec")
    let vc ← decodeOptString (jlookup m "vcodec")
    let fsz ← decodeOptU64 (jlookup m "filesize")
    let fsa ← decodeOptU64 (jlookup m "filesize_approx")
    let lang ← decodeOptString (jlookup m "language")
    let note ← decodeOptString (jlookup m "format_note")
    .ok ⟨fid, e, w, h, ac, vc, fsz, fsa, lang, note⟩
  | _ => .error .parseError

/-- serde decoding of the `formats` array. -/
def decodeFormats : Json → Except ParseError (List YtDlpFormat)
  | .arr xs => xs.mapM decodeFormat
  | _ => .error .parseError

/-- serde decoding of `YtDlpOutput` (struct at lines 29-33): both `title`
and `formats` are plain fields without `#[serde(default)]`, hence required
— a missing one is a decode error. -/
def decodeOutput : Json → Except ParseError YtDlpOutput
  | .obj m => do
    let t ← match jlookup m "title" with
      | some j => decodeString j
      | none => .error .parseError
    let fs ← match jlookup m "formats" with
      | some j => decodeFormats j
      | none => .error .parseError
    .ok ⟨t, fs⟩
  | _ => .error .parseError

/-- `serde_json::from_str` on the captured stdout (line 136): text that is
not valid JSON (`none`) or whose value does not decode fails with a
`ParseError`. -/
def parseMeta : Option Json → Except ParseError YtDlpOutput
  | none => .error .parseError
  | some j => decodeOutput j

/-! ### The analyze handler (lines 122-197) -/

/-- Outcome of `Command::new("./yt-dlp_linux").arg("--dump-json").arg(url)
.output()`: spawn failure, or an exit with a status flag, captured stdout
(already taken through the JSON syntax phase, see above) and stderr. -/
inductive ToolOutcome where
  | spawnErr (msg : String) : ToolOutcome
  | exited (success : Bool) (stdout : Option Json) (stderr : String) : ToolOutcome

/-- The page `analyze_url` renders: the landing page with an optional
error (`IndexTemplate`), or the metadata page (`AnalyzeTemplate`). -/
inductive Page where
  | index (error : Option String) : Page
  | analyzePage (url title : String) (formats : List DisplayFormat)
      (languages : List String) : Page
deriving DecidableEq

/-- The `analyze_url` handler (lines 122-197), starting after the
subprocess call: error pages for spawn failure, non-zero exit and parse
failure, otherwise the classified metadata page. -/
def analyze_url (url : String) (output : ToolOutcome) : Page :=
  match output with
  | .spawnErr e => .index (some e)
  | .exited success stdout stderr =>
    if !success then .index (some ("yt-dlp error: " ++ stderr))
    else
      match parseMeta stdout with
      | .error _ => .index (some "Failed to parse JSON from yt-dlp")
      | .ok meta =>
        let p := classify meta.formats
        .analyzePage url meta.title p.1 p.2

/-! ### The download handler (lines 199-229) -/

/-- `struct DownloadRequest` (lines 89-94). -/
structure DownloadRequest where
  url : String
  format_id : String
  file_type : String

/-- The argument list `download_format` builds (lines 200-221): audio
extraction to mp3 when `file_type == "Audio Only"`, otherwise a merge to
mp4; both select the format id and the `downloads/` output template. -/
def buildDownloadArgs (req : DownloadRequest) : List String :=
  if req.file_type == "Audio Only" then
    ["-f", req.format_id, "-x", "--audio-format", "mp3",
     "-o", "downloads/%(title)s.%(ext)s", req.url]
  else
    ["-f", req.format_id, "--merge-output-format", "mp4",
     "-o", "downloads/%(title)s.%(ext)s", req.url]

/-! ### The file-listing handler `show_files` (lines 231-267) -/

/-- `enum MediaType` (lines 50-55). -/
inductive MediaType where
  | video : MediaType
  | audio : MediaType
  | other : MediaType
deriving Repr, DecidableEq

/-- `struct FileInfo` (lines 57-63). -/
structure FileInfo where
  name : String
  media_type : MediaType
  mime_type : String
  size_mb : String
deriving Repr, DecidableEq

/-- One directory entry as `show_files` observes it: `name` is the result
of `entry.file_name().into_string()` (`none` when the OS name is not valid
Unicode), `isFile` is `entry.path().is_file()`, and `size` is
`fs::metadata(..).ok().map(|m| m.len())` (`none` when reading the metadata
fails). -/
structure DirEntry where
  name : Option String
  isFile : Bool
  size : Option Nat
deriving Repr, DecidableEq

/-- Rust `name.starts_with(".")` (line 238): the first character is the
hidden-file marker `.`. -/
def starts_with_dot (s : String) : Bool :=
  match s.data with
  | c :: _ => c == '.'
  | [] => false

/-- The major type `mime.type_()` of a MIME string: the part before `/`. -/
def mimeMajor (m : String) : String :=
  (m.data.takeWhile (fun c => c != '/')).asString

/-- The loop body of `show_files` (lines 234-263) for one entry: skip
non-files, names that are not Unicode, and names starting with `"."`;
otherwise classify by MIME major type and format the byte length.  The
MIME guess itself is performed by the external `mime_guess` crate, so it
is a parameter `guess` from the file name, with `none` standing for "no
known type" — `first_or_octet_stream` then falls back to
`application/octet-stream`. -/
def show_files_entry (guess : String → Option String) (e : DirEntry) :
    Option FileInfo :=
  if e.isFile then
    match e.name with
    | some name =>
      if !starts_with_dot name then
        let mime := (guess name).getD "application/octet-stream"
        let mt :=
          if mimeMajor mime == "video" then MediaType.video
          else if mimeMajor mime == "audio" then MediaType.audio
          else MediaType.other
        some ⟨name, mt, mime, mb_string (e.size.getD 0)⟩
      else none
    | none => none
  else none

/-- The `show_files` handler (lines 231-267).  `dir` is the outcome of
`fs::read_dir("downloads")`: `none` when the read fails (yielding the
empty listing), otherwise the entry sequence, each entry itself fallible
(`entries.flatten()` drops per-entry errors, modelled as `Option`).  The
final `sort_by(|a, b| a.name.cmp(&b.name))` sorts ascending by name. -/
def show_files (guess : String → Option String)
    (dir : Option (List (Option DirEntry))) : List FileInfo :=
  match dir with
  | none => []
  | some entries =>
    List.insertionSort (fun a b => str_le a.name b.name = true)
      ((entries.filterMap id).filterMap (show_files_entry guess))

end StreamDl

namespace StreamDl

example : type_label ⟨"1", none, none, none, none, none, none, none, none, none⟩ = "Audio Only" := by
  decide

example :
    size_str ⟨"1", none, none, none, none, none, some 10485760, none, none, none⟩
      = "10.00 MB" := by decide

example :
    size_str ⟨"1", none, none, none, none, none, some 0, some 10485760, none, none⟩
      = "Unknown" := by decide

example :
    (classify
      [⟨"1", none, none, none, none, none, none, none, some "en", none⟩,
       ⟨"2", none, none, none, none, none, none, none, some "fr", none⟩,
       ⟨"3", none, none, none, none, none, none, none, some "en", none⟩,
       ⟨"4", none, none, none, none, none, none, none, none, none⟩]).2
      = ["en", "fr"] := by decide

example :
    decodeOutput (.obj [("formats", .arr [])]) = .error .parseError := rfl

example :
    decodeOutput (.obj [("title", .str "T"), ("formats", .arr [.obj [("format_id", .str "22")]])])
      = .ok ⟨"T", [⟨"22", none, none, none, none, none, none, none, none, none⟩]⟩ := rfl

example :
    show_files (fun n => if n == "a.mp4" then some "video/mp4" else none)
      (some [some ⟨some "b.mp3", true, some 0⟩, some ⟨some "a.mp4", true, some 0⟩,
             some ⟨some ".DS_Store", true, some 0⟩, some ⟨none, true, some 7⟩])
      = [⟨"a.mp4", .video, "video/mp4", "0.00 MB"⟩,
         ⟨"b.mp3", .other, "application/octet-stream", "0.00 MB"⟩] := by decide

end StreamDl

namespace StreamDl

/-! ### Order properties of the byte-wise string comparison -/

theorem chars_le_total : ∀ as bs : List Char, chars_le as bs = true ∨ chars_le bs as = true
  | [], _ => Or.inl rfl
  | _ :: _, [] => Or.inr rfl
  | a :: as, b :: bs => by
    by_cases h1 : a.toNat < b.toNat
    · left; simp [chars_le, h1]
    · by_cases h2 : b.toNat < a.toNat
      · right; simp [chars_le, h2]
      · simpa [chars_le, h1, h2] using chars_le_total as bs

theorem chars_le_trans :
    ∀ as bs cs : List Char, chars_le as bs = true → chars_le bs cs = true →
      chars_le as cs = true
  | [], _, _, _, _ => rfl
  | _ :: _, [], _, h1, _ => by simp [chars_le] at h1
  | _ :: _, _ :: _, [], _, h2 => by simp [chars_le] at h2
  | a :: as, b :: bs, c :: cs, h1, h2 => by
    simp only [chars_le] at h1 h2 ⊢
    split_ifs at h1 h2 ⊢ with g1 g2 g3 g4 g5 g6 <;>
      first
        | rfl
        | omega
        | exact chars_le_trans as bs cs h1 h2

instance : IsTotal String (fun a b => str_le a b = true) :=
  ⟨fun a b => chars_le_total a.data b.data⟩

instance : IsTrans String (fun a b => str_le a b = true) :=
  ⟨fun _ _ _ => chars_le_trans _ _ _⟩

instance : IsTotal FileInfo (fun a b => str_le a.name b.name = true) :=
  ⟨fun a b => chars_le_total a.name.data b.name.data⟩

instance : IsTrans FileInfo (fun a b => str_le a.name b.name = true) :=
  ⟨fun _ _ _ => chars_le_trans _ _ _⟩

/-! ### Invariants of the classifier loop -/

theorem mem_push_lang (langs : List String) (lang l : String) :
    (l ∈ if lang != "Unknown" && !langs.contains lang then langs ++ [lang] else langs) ↔
      l ∈ langs ∨ (l = lang ∧ l ≠ "Unknown") := by
  by_cases hu : lang = "Unknown"
  · subst hu
    simp
  · by_cases hc : lang ∈ langs
    · have : langs.contains lang = true := List.elem_iff.mpr hc
      simp only [this, Bool.not_true, Bool.and_false, Bool.false_eq_true, if_false]
      constructor
      · exact Or.inl
      · rintro (h | ⟨rfl, _⟩)
        · exact h
        · exact hc
    · have : langs.contains lang = false := by
        rw [Bool.eq_false_iff]
        intro h
        exact hc (List.elem_iff.mp h)
      have hne : (lang != "Unknown") = true := bne_iff_ne.mpr hu
      simp only [this, hne, Bool.not_false, Bool.and_true, if_true, List.mem_append,
        List.mem_singleton]
      constructor
      · rintro (h | rfl)
        · exact Or.inl h
        · exact Or.inr ⟨rfl, hu⟩
      · rintro (h | ⟨rfl, _⟩)
        · exact Or.inl h
        · exact Or.inr rfl

theorem nodup_push_lang (langs : List String) (lang : String) (hn : langs.Nodup) :
    (if lang != "Unknown" && !langs.contains lang then langs ++ [lang] else langs).Nodup := by
  cases h : (lang != "Unknown" && !langs.contains lang) with
  | false => simpa [h] using hn
  | true =>
    have hnm : lang ∉ langs := by
      have := ((Bool.and_eq_true _ _).mp h).2
      simpa using this
    simp [h, List.nodup_append, hn, hnm]

theorem classify_fold_fst (fs : List YtDlpFormat) :
    ∀ acc : List DisplayFormat × List String,
      (fs.foldl classify_step acc).1 = acc.1 ++ fs.map mk_display := by
  induction fs with
  | nil => simp
  | cons f fs ih =>
    intro acc
    rw [List.foldl_cons, ih]
    simp [classify_step]

theorem classify_fold_snd_mem (fs : List YtDlpFormat) :
    ∀ (acc : List DisplayFormat × List String) (l : String),
      l ∈ (fs.foldl classify_step acc).2 ↔
        l ∈ acc.2 ∨ (l ∈ fs.map row_lang ∧ l ≠ "Unknown") := by
  induction fs with
  | nil => simp
  | cons f fs ih =>
    intro acc l
    rw [List.foldl_cons, ih]
    have hstep : (classify_step acc f).2 =
        if row_lang f != "Unknown" && !acc.2.contains (row_lang f)
        then acc.2 ++ [row_lang f] else acc.2 := rfl
    rw [hstep, mem_push_lang]
    simp only [List.map_cons, List.mem_cons]
    tauto

theorem classify_fold_snd_nodup (fs : List YtDlpFormat) :
    ∀ acc : List DisplayFormat × List String,
      acc.2.Nodup → (fs.foldl classify_step acc).2.Nodup := by
  induction fs with
  | nil => exact fun _ h => h
  | cons f fs ih =>
    intro acc hn
    rw [List.foldl_cons]
    exact ih _ (nodup_push_lang acc.2 (row_lang f) hn)

end StreamDl

namespace StreamDl

/-- Unfolding equation for `classify`. -/
theorem classify_eq (fs : List YtDlpFormat) :
    classify fs =
      ((fs.foldl classify_step ([], [])).1,
       List.insertionSort (fun a b => str_le a b = true)
         (fs.foldl classify_step ([], [])).2) := rfl

/-- The fractional part printed by `{:.2}` always has exactly two digits. -/
theorem pad2_length (x : Nat) (h : x < 100) : (pad2 x).length = 2 := by
  interval_cases x <;> decide

/-- C3: a descriptor has audio iff its `acodec` is present and not the
sentinel `"none"`, has video analogously for `vcodec`; the type label is
`"Video+Audio"` when both hold, `"Video Only"` when only video holds, and
`"Audio Only"` otherwise, including when both codec fields are absent. -/
theorem c3_type_label (f : YtDlpFormat) :
    (is_audio f = true ↔ ∃ a, f.acodec = some a ∧ a ≠ "none") ∧
    (is_video f = true ↔ ∃ v, f.vcodec = some v ∧ v ≠ "none") ∧
    (is_audio f = true → is_video f = true → type_label f = "Video+Audio") ∧
    (is_video f = true → is_audio f = false → type_label f = "Video Only") ∧
    (is_video f = false → type_label f = "Audio Only") := by
  refine ⟨?_, ?_, ?_, ?_, ?_⟩
  · cases ha : f.acodec with
    | none => simp [is_audio, ha]
    | some a => simp [is_audio, ha]
  · cases hv : f.vcodec with
    | none => simp [is_video, hv]
    | some v => simp [is_video, hv]
  · intro ha hv
    simp [type_label, ha, hv]
  · intro hv ha
    simp [type_label, ha, hv]
  · intro hv
    simp [type_label, hv]

/-- Witness for C3 at one concrete descriptor of each kind. -/
theorem c3_type_label_witness :
    type_label ⟨"1", none, none, none, some "opus", some "vp9", none, none, none, none⟩
        = "Video+Audio" ∧
    type_label ⟨"2", none, none, none, some "none", some "vp9", none, none, none, none⟩
        = "Video Only" ∧
    type_label ⟨"3", none, none, none, none, none, none, none, none, none⟩
        = "Audio Only" :=
  ⟨(c3_type_label _).2.2.1 (by decide) (by decide),
   (c3_type_label _).2.2.2.1 (by decide) (by decide),
   (c3_type_label _).2.2.2.2 (by decide)⟩

/-- The row component of the classifier is the map of `mk_display` over the
input descriptors. -/
theorem classify_fst_map (fs : List YtDlpFormat) :
    (classify fs).1 = fs.map mk_display := by
  rw [classify_eq]
  simpa using classify_fold_fst fs ([], [])

/-- C5: the classifier emits exactly one display row per descriptor, in
the input order, for every descriptor list (it is total: no failure on
absent optional fields). -/
theorem c5_one_row_per_descriptor (fs : List YtDlpFormat) :
    (classify fs).1 = fs.map mk_display ∧ (classify fs).1.length = fs.length :=
  ⟨classify_fst_map fs, by rw [classify_fst_map, List.length_map]⟩

/-- C4: the language list of the classifier is sorted ascending in the
byte-wise string order, duplicate-free, and contains exactly the language
strings observed on the rows other than `"Unknown"`; on the spec's example
(`en`, `fr`, `en`, absent) it is exactly `["en", "fr"]`. -/
theorem c4_language_set :
    (∀ fs : List YtDlpFormat,
      List.Sorted (fun a b => str_le a b = true) (classify fs).2 ∧
      (classify fs).2.Nodup ∧
      (∀ l, l ∈ (classify fs).2 ↔
        l ∈ (classify fs).1.map DisplayFormat.language ∧ l ≠ "Unknown")) ∧
    (classify
      [⟨"1", none, none, none, none, none, none, none, some "en", none⟩,
       ⟨"2", none, none, none, none, none, none, none, some "fr", none⟩,
       ⟨"3", none, none, none, none, none, none, none, some "en", none⟩,
       ⟨"4", none, none, none, none, none, none, none, none, none⟩]).2
      = ["en", "fr"] := by
  constructor
  · intro fs
    refine ⟨?_, ?_, ?_⟩
    · rw [classify_eq]
      exact List.sorted_insertionSort _ _
    · rw [classify_eq]
      exact ((List.perm_insertionSort _ _).nodup_iff).mpr
        (classify_fold_snd_nodup fs ([], []) List.nodup_nil)
    · intro l
      have hrows : (classify fs).1 = fs.map mk_display :=
        classify_fst_map fs
      rw [classify_eq]
      simp only [List.mem_insertionSort]
      rw [classify_fold_snd_mem]
      rw [classify_eq] at hrows
      simp only at hrows
      rw [hrows]
      simp only [List.map_map, List.not_mem_nil, false_or]
      have : DisplayFormat.language ∘ mk_display = row_lang := by
        funext g
        rfl
      rw [this]
  · decide

end StreamDl

namespace StreamDl

/-- C9: a `language` field that is literally `"Unknown"` is treated exactly
like an absent field — the classifier output is identical in the two cases
(the exclusion tests the derived row language string), and `"Unknown"` can
never appear in the collected language list. -/
theorem c9_unknown_language_excluded :
    (∀ (pre post : List YtDlpFormat) (f : YtDlpFormat),
      classify (pre ++ {f with language := some "Unknown"} :: post) =
        classify (pre ++ {f with language := none} :: post)) ∧
    (∀ fs : List YtDlpFormat, "Unknown" ∉ (classify fs).2) := by
  constructor
  · intro pre post f
    have hstep : ∀ acc, classify_step acc {f with language := some "Unknown"} =
        classify_step acc {f with language := none} := fun _ => rfl
    rw [classify_eq, classify_eq, List.foldl_append, List.foldl_append,
      List.foldl_cons, List.foldl_cons, hstep]
  · intro fs h
    rw [classify_eq] at h
    simp only [List.mem_insertionSort] at h
    rcases (classify_fold_snd_mem fs ([], []) "Unknown").mp h with h0 | ⟨_, hne⟩
    · exact List.not_mem_nil _ h0
    · exact hne rfl

/-- C1 counterexample: for a descriptor with exact filesize `0` and
approximate filesize `10485760`, the code renders `"Unknown"`, while the
claim demands the approximate size formatted, i.e. `"10.00 MB"`. -/
theorem c1_counterexample :
    size_str ⟨"18", none, none, none, none, none, some 0, some 10485760, none, none⟩
        = "Unknown" ∧
    mb_string 10485760 = "10.00 MB" ∧
    ("Unknown" : String) ≠ "10.00 MB" :=
  ⟨by decide, by decide, by decide⟩

/-- C1 (amended): the size string uses the exact filesize whenever that
field is present — including `Some(0)`, which yields `"Unknown"` even when
a positive approximate size exists — and falls back to the approximate
filesize only when the exact field is absent; the string is `"Unknown"`
exactly when the value so chosen is absent or zero, and otherwise is the
byte count divided by 1024 twice, with exactly two decimal digits,
followed by `" MB"`. -/
theorem c1_size_string (f : YtDlpFormat) :
    (∀ n, f.filesize = some n → 0 < n → size_str f = mb_string n) ∧
    (f.filesize = some 0 → size_str f = "Unknown") ∧
    (f.filesize = none →
      ∀ n, f.filesize_approx = some n → 0 < n → size_str f = mb_string n) ∧
    (f.filesize = none → f.filesize_approx = none ∨ f.filesize_approx = some 0 →
      size_str f = "Unknown") ∧
    (∀ n, ∃ d, mb_string n = Nat.repr (mb_hundredths n / 100) ++ "." ++ d ++ " MB" ∧
      d.length = 2) := by
  refine ⟨?_, ?_, ?_, ?_, ?_⟩
  · intro n h hpos
    simp [size_str, chosen_size, Option.or, h, hpos]
  · intro h
    simp [size_str, chosen_size, Option.or, h]
  · intro h n hn hpos
    simp [size_str, chosen_size, Option.or, h, hn, hpos]
  · rintro h (ha | ha) <;> simp [size_str, chosen_size, Option.or, h, ha]
  · intro n
    exact ⟨pad2 (mb_hundredths n % 100), rfl,
      pad2_length _ (Nat.mod_lt _ (by norm_num))⟩

/-- Witness for C1 (amended) at concrete sizes. -/
theorem c1_size_string_witness :
    size_str ⟨"1", none, none, none, none, none, some 10485760, none, none, none⟩
        = mb_string 10485760 ∧
    size_str ⟨"2", none, none, none, none, none, some 0, some 10485760, none, none⟩
        = "Unknown" ∧
    size_str ⟨"3", none, none, none, none, none, none, some 10485760, none, none⟩
        = mb_string 10485760 ∧
    size_str ⟨"4", none, none, none, none, none, none, some 0, none, none⟩
        = "Unknown" :=
  ⟨(c1_size_string _).1 10485760 rfl (by norm_num),
   (c1_size_string _).2.1 rfl,
   (c1_size_string _).2.2.1 rfl 10485760 rfl (by norm_num),
   (c1_size_string _).2.2.2.1 rfl (Or.inr rfl)⟩

/-- C2 counterexample: a well-formed JSON object lacking the `title` field
does not decode with a default — it is a hard parse failure. -/
theorem c2_counterexample :
    decodeOutput (.obj [("formats", .arr [])]) = .error .parseError ∧
    ∀ out, decodeOutput (.obj [("formats", .arr [])]) ≠ .ok out := by
  constructor
  · rfl
  · intro out h
    have hcontra : (Except.error ParseError.parseError : Except ParseError YtDlpOutput)
        = .ok out := by
      rw [← h]
      rfl
    exact Except.noConfusion hcontra

/-- C2 (amended): inside one descriptor, every field beyond `format_id` is
optional — a descriptor object carrying only `format_id` (plus arbitrary
unknown keys, which serde ignores) decodes to the all-default record, never
failing on absence; but the top-level `title` and `formats` fields are
required: a JSON object lacking `title`, or lacking `formats`, fails with a
`ParseError` carrying no partial data. -/
theorem c2_optional_fields :
    (∀ (s : String) (m : List (String × Json)),
      jlookup m "format_id" = some (.str s) →
      jlookup m "ext" = none → jlookup m "width" = none →
      jlookup m "height" = none → jlookup m "acodec" = none →
      jlookup m "vcodec" = none → jlookup m "filesize" = none →
      jlookup m "filesize_approx" = none → jlookup m "language" = none →
      jlookup m "format_note" = none →
      decodeFormat (.obj m) =
        .ok ⟨s, none, none, none, none, none, none, none, none, none⟩) ∧
    (∀ m, jlookup m "title" = none → decodeOutput (.obj m) = .error .parseError) ∧
    (∀ m t, jlookup m "title" = some (.str t) → jlookup m "formats" = none →
      decodeOutput (.obj m) = .error .parseError) := by
  refine ⟨?_, ?_, ?_⟩
  · intro s m h1 h2 h3 h4 h5 h6 h7 h8 h9 h10
    simp only [decodeFormat, h1, h2, h3, h4, h5, h6, h7, h8, h9, h10]
    rfl
  · intro m h
    simp only [decodeOutput, h]
    rfl
  · intro m t h1 h2
    simp only [decodeOutput, h1, h2]
    rfl

/-- Witness for C2 (amended): a descriptor with only `format_id` and one
unknown key decodes to defaults; top-level objects missing `title` or
`formats` fail. -/
theorem c2_optional_fields_witness :
    decodeFormat (.obj [("junk", .bool true), ("format_id", .str "22")]) =
      .ok ⟨"22", none, none, none, none, none, none, none, none, none⟩ ∧
    decodeOutput (.obj [("formats", .arr [])]) = .error .parseError ∧
    decodeOutput (.obj [("title", .str "T")]) = .error .parseError :=
  ⟨(c2_optional_fields).1 "22" _ rfl rfl rfl rfl rfl rfl rfl rfl rfl rfl,
   (c2_optional_fields).2.1 _ rfl,
   (c2_optional_fields).2.2 _ "T" rfl rfl⟩

end StreamDl

namespace StreamDl

/-- C6: when the tool's stdout is not valid JSON of the expected shape,
the analyze operation renders only the fixed parse-failure message on the
landing page — no title and no rows are produced. -/
theorem c6_parse_error_no_partial_data
    (url : String) (stdout : Option Json) (stderr : String)
    (h : parseMeta stdout = .error .parseError) :
    analyze_url url (.exited true stdout stderr) =
      .index (some "Failed to parse JSON from yt-dlp") ∧
    ∀ u t rows langs,
      analyze_url url (.exited true stdout stderr) ≠ .analyzePage u t rows langs := by
  have h2 : analyze_url url (.exited true stdout stderr) =
      .index (some "Failed to parse JSON from yt-dlp") := by
    simp [analyze_url, h]
  exact ⟨h2, fun u t rows langs hc => by rw [h2] at hc; exact Page.noConfusion hc⟩

/-- Witness for C6: non-JSON stdout and wrongly-shaped JSON stdout both
render the parse-failure page. -/
theorem c6_parse_error_no_partial_data_witness :
    analyze_url "https://example.com/v" (.exited true none "") =
      .index (some "Failed to parse JSON from yt-dlp") ∧
    analyze_url "https://example.com/v" (.exited true (some (.str "nope")) "") =
      .index (some "Failed to parse JSON from yt-dlp") :=
  ⟨(c6_parse_error_no_partial_data _ none "" rfl).1,
   (c6_parse_error_no_partial_data _ (some (.str "nope")) "" rfl).1⟩

/-- The audio-extraction block never occurs inside the video invocation. -/
theorem no_audio_block_in_video_args (id u : String) :
    ¬ ["-x", "--audio-format", "mp3"] <:+:
      ["-f", id, "--merge-output-format", "mp4", "-o",
       "downloads/%(title)s.%(ext)s", u] := by
  rintro ⟨s, t, h⟩
  rcases s with _ | ⟨a1, _ | ⟨a2, _ | ⟨a3, _ | ⟨a4, _ | ⟨a5, s⟩⟩⟩⟩⟩
  · simp at h
  · simp at h
  · simp at h
  · simp at h
  · simp at h
  · have hl := congrArg List.length h
    simp [List.length_append] at hl
    omega

/-- The mp4-merge block never occurs inside the audio invocation. -/
theorem no_merge_block_in_audio_args (id u : String) :
    ¬ ["--merge-output-format", "mp4"] <:+:
      ["-f", id, "-x", "--audio-format", "mp3", "-o",
       "downloads/%(title)s.%(ext)s", u] := by
  rintro ⟨s, t, h⟩
  rcases s with _ | ⟨a1, _ | ⟨a2, _ | ⟨a3, _ | ⟨a4, _ | ⟨a5, _ | ⟨a6, _ | ⟨a7, s⟩⟩⟩⟩⟩⟩⟩
  · simp at h
  · simp at h
  · simp at h
  · simp at h
  · simp at h
  · simp at h
  · simp at h
  · have hl := congrArg List.length h
    simp [List.length_append] at hl
    omega

/-- C7: the built external-tool invocation requests audio extraction and
transcoding to mp3 exactly when `file_type` is `"Audio Only"`, and a merge
of the output streams to mp4 exactly otherwise; in both cases it selects
the requested format id and writes through the title-based output template
into the fixed `downloads` directory. -/
theorem c7_download_invocation (req : DownloadRequest) :
    (req.file_type = "Audio Only" →
      buildDownloadArgs req =
        ["-f", req.format_id, "-x", "--audio-format", "mp3",
         "-o", "downloads/%(title)s.%(ext)s", req.url]) ∧
    (req.file_type ≠ "Audio Only" →
      buildDownloadArgs req =
        ["-f", req.format_id, "--merge-output-format", "mp4",
         "-o", "downloads/%(title)s.%(ext)s", req.url]) ∧
    (["-x", "--audio-format", "mp3"] <:+: buildDownloadArgs req ↔
      req.file_type = "Audio Only") ∧
    (["--merge-output-format", "mp4"] <:+: buildDownloadArgs req ↔
      req.file_type ≠ "Audio Only") ∧
    (["-f", req.format_id] <+: buildDownloadArgs req) ∧
    (["-o", "downloads/%(title)s.%(ext)s", req.url] <:+ buildDownloadArgs req) := by
  by_cases hft : req.file_type = "Audio Only"
  · have hb : buildDownloadArgs req =
        ["-f", req.format_id, "-x", "--audio-format", "mp3",
         "-o", "downloads/%(title)s.%(ext)s", req.url] := by
      simp [buildDownloadArgs, hft]
    refine ⟨fun _ => hb, fun hne => absurd hft hne, ?_, ?_, ?_, ?_⟩
    · rw [hb]
      exact ⟨fun _ => hft,
        fun _ => ⟨["-f", req.format_id],
          ["-o", "downloads/%(title)s.%(ext)s", req.url], rfl⟩⟩
    · rw [hb]
      exact ⟨fun hin => absurd hin (no_merge_block_in_audio_args _ _),
        fun hne => absurd hft hne⟩
    · rw [hb]
      exact ⟨["-x", "--audio-format", "mp3",
        "-o", "downloads/%(title)s.%(ext)s", req.url], rfl⟩
    · rw [hb]
      exact ⟨["-f", req.format_id, "-x", "--audio-format", "mp3"], rfl⟩
  · have hb : buildDownloadArgs req =
        ["-f", req.format_id, "--merge-output-format", "mp4",
         "-o", "downloads/%(title)s.%(ext)s", req.url] := by
      simp [buildDownloadArgs, hft]
    refine ⟨fun he => absurd he hft, fun _ => hb, ?_, ?_, ?_, ?_⟩
    · rw [hb]
      exact ⟨fun hin => absurd hin (no_audio_block_in_video_args _ _),
        fun he => absurd he hft⟩
    · rw [hb]
      exact ⟨fun _ => hft,
        fun _ => ⟨["-f", req.format_id],
          ["-o", "downloads/%(title)s.%(ext)s", req.url], rfl⟩⟩
    · rw [hb]
      exact ⟨["--merge-output-format", "mp4",
        "-o", "downloads/%(title)s.%(ext)s", req.url], rfl⟩
    · rw [hb]
      exact ⟨["-f", req.format_id, "--merge-output-format", "mp4"], rfl⟩

/-- Witness for C7 at one audio and one video request. -/
theorem c7_download_invocation_witness :
    buildDownloadArgs ⟨"https://example.com/v", "140", "Audio Only"⟩ =
      ["-f", "140", "-x", "--audio-format", "mp3",
       "-o", "downloads/%(title)s.%(ext)s", "https://example.com/v"] ∧
    buildDownloadArgs ⟨"https://example.com/v", "22", "Video+Audio"⟩ =
      ["-f", "22", "--merge-output-format", "mp4",
       "-o", "downloads/%(title)s.%(ext)s", "https://example.com/v"] :=
  ⟨(c7_download_invocation _).1 rfl,
   (c7_download_invocation _).2.1 (by decide)⟩

end StreamDl

namespace StreamDl

/-- Unfolding equation for `show_files` on a readable directory. -/
theorem show_files_some (guess : String → Option String)
    (entries : List (Option DirEntry)) :
    show_files guess (some entries) =
      List.insertionSort (fun a b : FileInfo => str_le a.name b.name = true)
        ((entries.filterMap id).filterMap (show_files_entry guess)) := rfl

/-- An entry that produced a listed row is a regular file with a valid,
non-hidden name equal to the row's name. -/
theorem show_files_entry_spec (guess : String → Option String) (e : DirEntry)
    (fi : FileInfo) (h : show_files_entry guess e = some fi) :
    e.isFile = true ∧ e.name = some fi.name ∧ starts_with_dot fi.name = false := by
  by_cases hf : e.isFile = true
  · cases hn : e.name with
    | none => simp [show_files_entry, hf, hn] at h
    | some name =>
      by_cases hd : starts_with_dot name = true
      · simp [show_files_entry, hf, hn, hd] at h
      · have hd2 : starts_with_dot name = false := by
          rw [Bool.eq_false_iff]
          exact hd
        simp [show_files_entry, hf, hn, hd2] at h
        refine ⟨hf, ?_, ?_⟩
        · rw [← h]
        · rw [← h]
          exact hd2
  · simp [show_files_entry, hf] at h

/-- A regular file with a valid non-hidden name always produces a row with
that name. -/
theorem show_files_entry_mk (guess : String → Option String) (e : DirEntry)
    (n : String) (h1 : e.isFile = true) (h2 : e.name = some n)
    (h3 : starts_with_dot n = false) :
    ∃ fi, show_files_entry guess e = some fi ∧ fi.name = n := by
  refine ⟨⟨n,
    if mimeMajor ((guess n).getD "application/octet-stream") == "video" then .video
    else if mimeMajor ((guess n).getD "application/octet-stream") == "audio" then .audio
    else .other,
    (guess n).getD "application/octet-stream",
    mb_string (e.size.getD 0)⟩, ?_, rfl⟩
  simp [show_files_entry, h1, h2, h3]

/-- C8: the file listing is exactly the regular-file entries with a
(Unicode) name not starting with the hidden-file marker `"."`, sorted
ascending by filename in the byte-wise string order, and a directory-read
failure yields the empty listing rather than an error. -/
theorem c8_file_listing (guess : String → Option String)
    (dir : Option (List (Option DirEntry))) :
    (dir = none → show_files guess dir = []) ∧
    List.Sorted (fun a b : FileInfo => str_le a.name b.name = true)
      (show_files guess dir) ∧
    (∀ n : String,
      (∃ fi ∈ show_files guess dir, fi.name = n) ↔
        ∃ entries, dir = some entries ∧ ∃ e : DirEntry, some e ∈ entries ∧
          e.isFile = true ∧ e.name = some n ∧ starts_with_dot n = false) := by
  refine ⟨?_, ?_, ?_⟩
  · rintro rfl
    rfl
  · cases dir with
    | none => simp [show_files]
    | some entries =>
      rw [show_files_some]
      exact List.sorted_insertionSort _ _
  · intro n
    cases dir with
    | none => simp [show_files]
    | some entries =>
      rw [show_files_some]
      constructor
      · rintro ⟨fi, hmem, rfl⟩
        rw [List.mem_insertionSort] at hmem
        rcases List.mem_filterMap.mp hmem with ⟨e, he, hfe⟩
        rcases List.mem_filterMap.mp he with ⟨oe, hoe, hid⟩
        rcases show_files_entry_spec guess e fi hfe with ⟨h1, h2, h3⟩
        exact ⟨entries, rfl, e, hid ▸ hoe, h1, h2, h3⟩
      · rintro ⟨entries2, heq, e, hmem, h1, h2, h3⟩
        injection heq with heq2
        subst heq2
        rcases show_files_entry_mk guess e n h1 h2 h3 with ⟨fi, hfe, hname⟩
        refine ⟨fi, ?_, hname⟩
        rw [List.mem_insertionSort]
        exact List.mem_filterMap.mpr ⟨e, List.mem_filterMap.mpr ⟨some e, hmem, rfl⟩, hfe⟩

/-- Witness for C8: failure gives the empty listing; on a directory with
`b.mp3` and `a.mp4` the listing holds `a.mp4` and is sorted ascending. -/
theorem c8_file_listing_witness :
    show_files (fun _ => none) none = [] ∧
    (∃ fi ∈ show_files (fun _ => none)
        (some [some ⟨some "b.mp3", true, some 0⟩, some ⟨some "a.mp4", true, some 0⟩]),
      fi.name = "a.mp4") ∧
    show_files (fun _ => none)
        (some [some ⟨some "b.mp3", true, some 0⟩, some ⟨some "a.mp4", true, some 0⟩])
      = [⟨"a.mp4", .other, "application/octet-stream", "0.00 MB"⟩,
         ⟨"b.mp3", .other, "application/octet-stream", "0.00 MB"⟩] :=
  ⟨(c8_file_listing (fun _ => none) none).1 rfl,
   ((c8_file_listing (fun _ => none) _).2.2 "a.mp4").mpr
     ⟨_, rfl, ⟨some "a.mp4", true, some 0⟩, by decide, rfl, rfl, by decide⟩,
   by decide⟩

/-- C10: a directory entry whose name is not valid Unicode is silently
skipped — the listing is the same as if the entry were not there at all,
even for a regular, non-hidden file. -/
theorem c10_nonunicode_name_skipped (guess : String → Option String)
    (pre post : List (Option DirEntry)) (isF : Bool) (sz : Option Nat) :
    show_files guess (some (pre ++ some ⟨none, isF, sz⟩ :: post)) =
      show_files guess (some (pre ++ post)) := by
  have he : show_files_entry guess ⟨none, isF, sz⟩ = none := by
    cases isF <;> rfl
  rw [show_files_some, show_files_some]
  congr 1
  simp [List.filterMap_append, List.filterMap_cons, he]

end StreamDl
